import Mathlib

/-!
Verification of the schema-cache core of the `mcp-directus` server.

The development shallowly embeds the two correctness-sensitive components:

* the Schema Fetcher (`src/utils/fetch-schema.ts`, function `fetchSchema`),
  which folds the raw Directus field/relation listings into a compact
  per-collection field map while applying size caps and filters; and
* the Lazy Schema Cache (`src/utils/lazy-schema.ts`: `getSchemaLazy`,
  `collectionExists`, and the invalidation entry point), modelled as explicit
  state passing over a single cache slot, with the cooperative-concurrency
  behaviour of `getSchemaLazy` additionally modelled as a small-step
  interleaving semantics.

JavaScript objects used as string-keyed dictionaries are embedded as
insertion-ordered association lists: property write keeps the position of an
existing key and appends a fresh one, matching JS property-assignment order.
-/

namespace McpDirectus

/-- An interface choice entry `{ text, value }` as read from
`field.meta.options.choices`. -/
structure Choice where
  text : String
  value : String
deriving Repr, DecidableEq

/-- The subset of `field.meta.options` consulted by `fetchSchema`. -/
structure FieldOptions where
  choices : Option (List Choice)
deriving Repr, DecidableEq

/-- The subset of a raw Directus field's `meta` consulted by `fetchSchema`. -/
structure FieldMeta where
  system : Option Bool
  special : Option (List String)
  interfaceHint : Option String
  required : Option Bool
  note : Option String
  options : Option FieldOptions
deriving Repr, DecidableEq

/-- The subset of a raw Directus field's `schema` consulted by `fetchSchema`. -/
structure FieldSchemaInfo where
  is_primary_key : Option Bool
deriving Repr, DecidableEq

/-- A raw Directus field record, as returned by `readFields()`. -/
structure DirectusField where
  collection : String
  field : String
  type : String
  meta : Option FieldMeta
  schema : Option FieldSchemaInfo
deriving Repr, DecidableEq

/-- The subset of a raw Directus relation's `meta` consulted by `fetchSchema`.
`one_allowed_collections` is a JSON array whose members may be null. -/
structure RelationMeta where
  one_allowed_collections : Option (List (Option String))
deriving Repr, DecidableEq

/-- A raw Directus relation record, as returned by `readRelations()`. -/
structure DirectusRelation where
  collection : String
  field : String
  related_collection : Option String
  meta : Option RelationMeta
deriving Repr, DecidableEq

/-- The value stored in `relation_collection`: a single (possibly null)
related collection name for `m2o`/`o2m`/`m2m`/`file`/`files`, or the ordered
allowed-collections list for `m2a`. -/
inductive RelCollection where
  | single : Option String → RelCollection
  | multi : List String → RelCollection
deriving Repr, DecidableEq

/-- The normalized output field shape (`Field` in `src/types/schema.ts`),
exactly the properties `fetchSchema` writes. Absent optional properties are
`none`. -/
structure SchemaField where
  type : String
  interfaceHint : Option String := none
  primary_key : Option Bool := none
  required : Option Bool := none
  note : Option String := none
  choices : Option (List Choice) := none
  relation_type : Option String := none
  relation_collection : Option RelCollection := none
  relation_meta : Option RelationMeta := none
deriving Repr, DecidableEq

/-- A string-keyed, insertion-ordered dictionary. -/
abbrev AList (α : Type) : Type := List (String × α)

/-- The output schema: collection name → field name → `SchemaField`. -/
abbrev Schema : Type := AList (AList SchemaField)

/-- JS property read `m[k]` (no prototype chain: the dictionaries here are
built only by the embedded code's own writes, so keys are unique and the
first match is the match). -/
def lookupA {α : Type} : AList α → String → Option α
  | [], _ => none
  | p :: t, k => if p.1 == k then some p.2 else lookupA t k

/-- JS property write `m[k] = v`: replaces the value of an existing key in
place, appends a fresh key at the end. -/
def setKey {α : Type} : AList α → String → α → AList α
  | [], k, v => [(k, v)]
  | p :: t, k, v => if p.1 == k then (k, v) :: t else p :: setKey t k v

/-- The key sequence of a dictionary (`Object.keys`). -/
def keysA {α : Type} (m : AList α) : List String :=
  m.map (·.1)

/-- The configuration object fields consulted by `fetchSchema`. -/
structure Config where
  MAX_SCHEMA_COLLECTIONS : Option Nat := none
  MAX_SCHEMA_FIELDS_PER_COLLECTION : Option Nat := none
  SCHEMA_EXCLUDE_COLLECTIONS : Option (List String) := none
deriving Repr, DecidableEq

/-- `config?.MAX_SCHEMA_COLLECTIONS ?? 50`. -/
def maxCollectionsOf (config : Option Config) : Nat :=
  ((config.bind (·.MAX_SCHEMA_COLLECTIONS)).getD 50)

/-- `config?.MAX_SCHEMA_FIELDS_PER_COLLECTION ?? 100`. -/
def maxFieldsPerCollectionOf (config : Option Config) : Nat :=
  ((config.bind (·.MAX_SCHEMA_FIELDS_PER_COLLECTION)).getD 100)

/-- `new Set(config?.SCHEMA_EXCLUDE_COLLECTIONS ?? [])`, as a membership
test. -/
def excludeCollectionsOf (config : Option Config) : List String :=
  ((config.bind (·.SCHEMA_EXCLUDE_COLLECTIONS)).getD [])

/-- The relation lookup built from the relation list:
`relationsLookup[collection][field]`. Successive writes for the same
(collection, field) pair overwrite, so the last matching relation wins. -/
def relLookup (relations : List DirectusRelation) (c f : String) :
    Option DirectusRelation :=
  (relations.filter (fun r => r.collection == c && r.field == f)).getLast?

/-- `field.meta?.special?.includes(s) === true`. -/
def specialIncludes (f : DirectusField) (s : String) : Bool :=
  match f.meta with
  | some m =>
    match m.special with
    | some l => l.contains s
    | none => false
  | none => false

/-- `field.meta?.system === true`. -/
def metaSystem (f : DirectusField) : Bool :=
  match f.meta with
  | some m => m.system == some true
  | none => false

/-- `fieldRelation?.related_collection === 'directus_files' ||
fieldRelation?.related_collection === 'directus_users'` for the relation
found in the lookup. -/
def isFileOrUserRelation (relations : List DirectusRelation)
    (f : DirectusField) : Bool :=
  match relLookup relations f.collection f.field with
  | some r =>
    r.related_collection == some "directus_files" ||
      r.related_collection == some "directus_users"
  | none => false

/-- Modelled from the spec: `stripNullUndefined` (imported from
`./strip-null-undefined.js`, whose source is not among the provided files)
removes null/undefined members recursively before storage (§3). On the
allowed-collections array it drops the null members. -/
def stripNullUndefinedList (l : List (Option String)) : List String :=
  l.filterMap id

/-- Modelled from the spec: `stripNullUndefined` applied to a relation's
`meta` object strips null/undefined members recursively (§3). -/
def stripNullUndefinedMeta (m : RelationMeta) : RelationMeta :=
  { one_allowed_collections :=
      (m.one_allowed_collections).map
        (fun l => (stripNullUndefinedList l).map some) }

/-- The `SchemaField` constructed for one admitted raw field record,
including the relation processing (the `if`/`else if` chain on the special
markers). -/
def buildSchemaField (relations : List DirectusRelation)
    (f : DirectusField) : SchemaField :=
  let base : SchemaField :=
    { type := f.type
      interfaceHint := f.meta.bind (·.interfaceHint)
      primary_key :=
        if (f.schema.bind (·.is_primary_key)) == some true then some true
        else none
      required :=
        if (f.meta.bind (·.required)) == some true then some true else none
      note := f.meta.bind (·.note) }
  let base :=
    match (f.meta.bind (·.options)).bind (·.choices) with
    | some cs =>
      if cs.length > 0 then
        { base with choices := some (cs.map (fun c => ⟨c.text, c.value⟩)) }
      else base
    | none => base
  let fieldRelation := relLookup relations f.collection f.field
  if specialIncludes f "m2o" || specialIncludes f "file" then
    let base :=
      { base with
          relation_type :=
            some (if specialIncludes f "file" then "file" else "m2o") }
    match fieldRelation with
    | some r =>
      { base with
          relation_collection := some (.single r.related_collection)
          relation_meta := r.meta }
    | none => base
  else if specialIncludes f "o2m" then
    let base := { base with relation_type := some "o2m" }
    match fieldRelation with
    | some r =>
      { base with
          relation_collection := some (.single r.related_collection)
          relation_meta := r.meta }
    | none => base
  else if specialIncludes f "m2m" || specialIncludes f "files" then
    let base :=
      { base with
          relation_type :=
            some (if specialIncludes f "files" then "files" else "m2m") }
    match fieldRelation with
    | some r =>
      { base with
          relation_collection := some (.single r.related_collection)
          relation_meta := r.meta }
    | none => base
  else if specialIncludes f "m2a" then
    let base := { base with relation_type := some "m2a" }
    match fieldRelation with
    | some r =>
      { base with
          relation_collection :=
            ((r.meta.bind (·.one_allowed_collections)).map
              (fun l => .multi (stripNullUndefinedList l)))
          relation_meta := r.meta.map stripNullUndefinedMeta }
    | none => base
  else base

/-- The accumulator of the fetch scan: the schema built so far, the
per-collection admitted-field counters, and the admitted-collection count. -/
structure ScanState where
  schema : Schema
  counts : AList Nat
  totalCollections : Nat
deriving Repr, DecidableEq

/-- The empty accumulator at the start of the scan. -/
def initScan : ScanState := ⟨[], [], 0⟩

/-- Filter (a): `excludeCollections.has(field.collection)`. -/
def excludedB (config : Option Config) (f : DirectusField) : Bool :=
  (excludeCollectionsOf config).contains f.collection

/-- Filter (b): `!schema[field.collection] && totalCollections >=
maxCollections` — the collection is not yet admitted and the collection cap
is reached. -/
def overCollectionCapB (config : Option Config) (s : ScanState)
    (f : DirectusField) : Bool :=
  (lookupA s.schema f.collection).isNone &&
    decide (s.totalCollections ≥ maxCollectionsOf config)

/-- Filter (c): `(collectionsFieldCount[field.collection] || 0) >=
maxFieldsPerCollection`. -/
def overFieldCapB (config : Option Config) (s : ScanState)
    (f : DirectusField) : Bool :=
  decide ((lookupA s.counts f.collection).getD 0 ≥
    maxFieldsPerCollectionOf config)

/-- Filter (d): the field is system-marked and is not a relation to
`directus_files` or `directus_users`. -/
def systemSkipB (relations : List DirectusRelation)
    (f : DirectusField) : Bool :=
  metaSystem f && !isFileOrUserRelation relations f

/-- Filter (e): the owning collection is a hidden internal `directus_`
collection (other than files/users). -/
def hiddenSystemB (f : DirectusField) : Bool :=
  f.collection.startsWith "directus_" &&
    f.collection != "directus_files" &&
    f.collection != "directus_users"

/-- Filter (f): UI-only field — type `alias` with special marker
`no-data`. -/
def uiOnlyB (f : DirectusField) : Bool :=
  f.type == "alias" && specialIncludes f "no-data"

/-- One iteration of `fetchSchema`'s field loop: apply the six skip filters
in source order, then admit the field. -/
def processField (relations : List DirectusRelation)
    (config : Option Config) (s : ScanState) (f : DirectusField) :
    ScanState :=
  if excludedB config f then s
  else if overCollectionCapB config s f then s
  else if overFieldCapB config s f then s
  else if systemSkipB relations f then s
  else if hiddenSystemB f then s
  else if uiOnlyB f then s
  else
    let isNew := (lookupA s.schema f.collection).isNone
    let schema1 :=
      if isNew then setKey s.schema f.collection [] else s.schema
    let total1 := if isNew then s.totalCollections + 1 else s.totalCollections
    let counts1 :=
      setKey s.counts f.collection ((lookupA s.counts f.collection).getD 0 + 1)
    let fieldsMap := (lookupA schema1 f.collection).getD []
    let schema2 :=
      setKey schema1 f.collection
        (setKey fieldsMap f.field (buildSchemaField relations f))
    ⟨schema2, counts1, total1⟩

/-- The whole scan of `fetchSchema` over the field list. -/
def fetchSchemaScan (fields : List DirectusField)
    (relations : List DirectusRelation) (config : Option Config) :
    ScanState :=
  fields.foldl (processField relations config) initScan

/-- The hard-coded minimal schema returned when the fetch fails. -/
def fallbackSchema : Schema :=
  [ ("directus_files",
      [ ("id", { type := "uuid", primary_key := some true }),
        ("filename_download", { type := "string" }) ]),
    ("directus_users",
      [ ("id", { type := "uuid", primary_key := some true }),
        ("email", { type := "string" }) ]) ]

/-- `fetchSchema`: the two remote reads are abstracted as an `Except` value
(any raised error is the `error` case, caught by the surrounding
`try`/`catch`); on success the field list is scanned, on failure the
hard-coded fallback schema is returned. -/
def fetchSchema
    (remote : Except String (List DirectusField × List DirectusRelation))
    (config : Option Config) : Schema :=
  match remote with
  | .ok (fields, relations) => (fetchSchemaScan fields relations config).schema
  | .error _ => fallbackSchema

/-! ### The lazy schema cache (`src/utils/lazy-schema.ts`)

The module-level variable `schemaCache` and the (conceptual) count of fetches
performed so far form the cache state. The fetch itself is abstracted by an
oracle `fetches : Nat → Schema`: the n-th fetch performed by the process
resolves to `fetches n` (this quantifies over every connection, configuration
and remote behaviour; `fetchSchema` never throws, so the oracle is total).
`directusInit` models whether `getGlobalDirectus()` returns a client. -/

/-- The cache state: `schemaCache` (null or a resolved schema) plus the
number of fetches issued so far. -/
structure CacheState where
  schemaCache : Option Schema
  fetchCount : Nat
deriving Repr, DecidableEq

/-- `getSchemaLazy()`: return the cached schema if the cache slot is set;
otherwise check the global client, fetch, store the result in the slot and
return it. Errors (`Directus client not initialized`) are the `Except.error`
case. -/
def getSchemaLazy (directusInit : Bool) (fetches : Nat → Schema)
    (s : CacheState) : Except String (Schema × CacheState) :=
  match s.schemaCache with
  | some cached => .ok (cached, s)
  | none =>
    if !directusInit then .error "Directus client not initialized"
    else
      let sch := fetches s.fetchCount
      .ok (sch, ⟨some sch, s.fetchCount + 1⟩)

/-- Modelled from the spec: `invalidateSchemaCache` is exported by
`src/utils/lazy-schema.ts` (it is imported and called by
`src/tools/collections.ts`) but its body is not among the provided sources;
per §4.2, `invalidate()` in any state transitions the cache to `Empty` and
returns nothing. -/
def invalidateSchemaCache (s : CacheState) : CacheState :=
  { s with schemaCache := none }

/-- `collectionExists(name)`: load the schema through the cache, then return
the truthiness of `schema[name]` (a present collection maps to an object,
which is truthy; an absent key reads as `undefined`, which is falsy). -/
def collectionExists (directusInit : Bool) (fetches : Nat → Schema)
    (s : CacheState) (name : String) :
    Except String (Bool × CacheState) :=
  (getSchemaLazy directusInit fetches s).map
    (fun r => ((lookupA r.1 name).isSome, r.2))

/-- `getCollectionSchema(name)`: load the schema through the cache, then
look the collection up, failing with a not-found error when absent. -/
def getCollectionSchema (directusInit : Bool) (fetches : Nat → Schema)
    (s : CacheState) (name : String) :
    Except String (AList SchemaField × CacheState) :=
  match getSchemaLazy directusInit fetches s with
  | .error e => .error e
  | .ok (sch, s1) =>
    match lookupA sch name with
    | some m => .ok (m, s1)
    | none =>
      .error ("Collection " ++ name ++ " not found in schema. " ++
        "Available collections: " ++ String.intercalate ", " (keysA sch))

/-- The cache-state effect of the create-collection tool handler
(`src/tools/collections.ts`): on both the folder path (line 108) and the
regular path (line 192) it calls `invalidateSchemaCache()` right after the
remote `createCollection` request succeeds; when the request throws, the
handler returns an error response without touching the cache. -/
def createCollectionToolCacheEffect (requestSucceeded : Bool)
    (s : CacheState) : CacheState :=
  if requestSucceeded then invalidateSchemaCache s else s

/-! ### Cooperative-interleaving semantics of `getSchemaLazy`

`getSchemaLazy` has exactly one suspension point: the `await` of
`fetchSchema`. A logical caller is therefore a task with three phases:
it has not run yet (`start`); it has performed the synchronous prefix —
the `schemaCache` check, the client check, and issuing the fetch — and is
suspended awaiting fetch number `ticket` (`fetching`); or it has returned
(`done`). A schedule is the list of task indices in the order the
single-threaded event loop advances them; each step is atomic. -/

instance {ε α : Type} [DecidableEq ε] [DecidableEq α] :
    DecidableEq (Except ε α) := fun x y =>
  match x, y with
  | .error a, .error b =>
    if h : a = b then .isTrue (by rw [h]) else .isFalse (by simp [h])
  | .ok a, .ok b =>
    if h : a = b then .isTrue (by rw [h]) else .isFalse (by simp [h])
  | .error _, .ok _ => .isFalse (by simp)
  | .ok _, .error _ => .isFalse (by simp)

/-- The execution phase of one logical `getSchemaLazy()` caller. -/
inductive TaskState where
  | start : TaskState
  | fetching : Nat → TaskState
  | done : Except String Schema → TaskState
deriving Repr, DecidableEq

/-- Global state of the interleaved execution: the shared cache slot, the
number of fetches issued, and every caller's phase. -/
structure ConcState where
  cache : Option Schema
  fetchCount : Nat
  tasks : List TaskState
deriving Repr, DecidableEq

/-- Advance caller `i` by one atomic segment of `getSchemaLazy`. From
`start`: a set cache slot returns it at once; otherwise the caller issues a
fetch and suspends (or errors out if the client is missing). From
`fetching t`: fetch `t` resolves, the caller writes the cache slot and
returns the result. -/
def concStep (directusInit : Bool) (fetches : Nat → Schema)
    (s : ConcState) (i : Nat) : ConcState :=
  match s.tasks.get? i with
  | none => s
  | some t =>
    match t with
    | .start =>
      match s.cache with
      | some cached => { s with tasks := s.tasks.set i (.done (.ok cached)) }
      | none =>
        if !directusInit then
          { s with
              tasks :=
                s.tasks.set i
                  (.done (.error "Directus client not initialized")) }
        else
          { s with
              fetchCount := s.fetchCount + 1
              tasks := s.tasks.set i (.fetching s.fetchCount) }
    | .fetching ticket =>
      let sch := fetches ticket
      { s with
          cache := some sch
          tasks := s.tasks.set i (.done (.ok sch)) }
    | .done _ => s

/-- Run a schedule: advance the named task one segment at a time. -/
def concRun (directusInit : Bool) (fetches : Nat → Schema)
    (s : ConcState) (schedule : List Nat) : ConcState :=
  schedule.foldl (concStep directusInit fetches) s

/-- The initial interleaved state: `Empty` cache, no fetches, `n` callers
about to invoke `getSchemaLazy()`. -/
def concInit (n : Nat) : ConcState :=
  ⟨none, 0, List.replicate n .start⟩

/-- The `SchemaField` stored for field `fd` of collection `c`, if any. -/
def admittedField (s : ScanState) (c fd : String) : Option SchemaField :=
  (lookupA s.schema c).bind (fun m => lookupA m fd)

/-! ### Concrete sample records used by the testable-property instances -/

/-- A plain user field `A.f1`. -/
def sampleFieldA1 : DirectusField := ⟨"A", "f1", "string", none, none⟩

/-- A plain user field `B.f1`. -/
def sampleFieldB1 : DirectusField := ⟨"B", "f1", "string", none, none⟩

/-- A plain user field `C.f1`. -/
def sampleFieldC1 : DirectusField := ⟨"C", "f1", "string", none, none⟩

/-- A plain user field `A.f2`. -/
def sampleFieldA2 : DirectusField := ⟨"A", "f2", "string", none, none⟩

/-- Configuration with `MAX_SCHEMA_COLLECTIONS = 2`. -/
def capTwoConfig : Config := ⟨some 2, none, none⟩

/-- Configuration with `MAX_SCHEMA_FIELDS_PER_COLLECTION = 1`. -/
def oneFieldConfig : Config := ⟨none, some 1, none⟩

/-- Configuration with `MAX_SCHEMA_FIELDS_PER_COLLECTION = 2`. -/
def twoFieldConfig : Config := ⟨none, some 2, none⟩

/-- The scan state after admitting `A.f1` and `B.f1` under `capTwoConfig`:
two collections admitted, the cap is reached. -/
def capReachedState : ScanState :=
  fetchSchemaScan [sampleFieldA1, sampleFieldB1] [] (some capTwoConfig)

/-- The scan state after admitting `A.f1` under `oneFieldConfig`: collection
`A` is at its field cap. -/
def fieldCapState : ScanState :=
  fetchSchemaScan [sampleFieldA1] [] (some oneFieldConfig)

/-- A system-marked UI-only field (`type: alias`, special `no-data`) whose
relation points at `directus_files`. -/
def coverField : DirectusField :=
  ⟨"blog", "cover", "alias",
    some ⟨some true, some ["no-data", "file"], none, none, none, none⟩, none⟩

/-- The file relation of `coverField`. -/
def coverRelation : DirectusRelation :=
  ⟨"blog", "cover", some "directus_files", none⟩

/-- A system-marked data field whose relation points at `directus_users`. -/
def avatarField : DirectusField :=
  ⟨"blog", "avatar", "uuid",
    some ⟨some true, none, none, none, none, none⟩, none⟩

/-- The user relation of `avatarField`. -/
def avatarRelation : DirectusRelation :=
  ⟨"blog", "avatar", some "directus_users", none⟩

/-- A field whose special markers carry both `m2o` and `m2a`. -/
def m2aCollidingField : DirectusField :=
  ⟨"blog", "item", "string",
    some ⟨none, some ["m2o", "m2a"], none, none, none, none⟩, none⟩

/-- A relation for `blog.item` with both a single related collection and an
allowed-collections list (the list containing a null member). -/
def m2aRelation : DirectusRelation :=
  ⟨"blog", "item", some "x", some ⟨some [some "a", none, some "b"]⟩⟩

/-- A field whose special markers carry only `m2a`. -/
def m2aOnlyField : DirectusField :=
  ⟨"blog", "item", "string",
    some ⟨none, some ["m2a"], none, none, none, none⟩, none⟩

/-- First record for field `A.f` (note "first"). -/
def dupField1 : DirectusField :=
  ⟨"A", "f", "string", some ⟨none, none, none, none, some "first", none⟩, none⟩

/-- Second record for the same field `A.f` (note "second"). -/
def dupField2 : DirectusField :=
  ⟨"A", "f", "string", some ⟨none, none, none, none, some "second", none⟩, none⟩

/-- A later record for a distinct field `A.g`. -/
def lateField : DirectusField := ⟨"A", "g", "string", none, none⟩

/-- A fetch oracle whose successive fetches return different schemas. -/
def twoFetchOracle : Nat → Schema :=
  fun n => if n == 0 then [("first", [])] else [("second", [])]

/-- A fetch oracle constantly returning the one-collection schema `a`. -/
def singleCollectionOracle : Nat → Schema := fun _ => [("a", [])]

/-! ### Dictionary lemmas -/

theorem lookupA_setKey_self {α : Type} (m : AList α) (k : String) (v : α) :
    lookupA (setKey m k v) k = some v := by
  induction m with
  | nil => simp [setKey, lookupA]
  | cons p t ih =>
    by_cases h : p.1 == k
    · simp [setKey, h, lookupA]
    · simp [setKey, h, lookupA, ih]

theorem lookupA_isSome_iff_mem_keysA {α : Type} (m : AList α) (k : String) :
    (lookupA m k).isSome = true ↔ k ∈ keysA m := by
  induction m with
  | nil => simp [lookupA, keysA]
  | cons p t ih =>
    by_cases h : p.1 == k
    · simp only [beq_iff_eq] at h
      simp [lookupA, keysA, h]
    · simp only [beq_iff_eq] at h
      simp [lookupA, keysA, h, ih, Ne.symm h]

/-! ### The two outcomes of one loop iteration -/

theorem processField_skip (relations : List DirectusRelation)
    (config : Option Config) (s : ScanState) (f : DirectusField)
    (h : excludedB config f = true ∨ overCollectionCapB config s f = true ∨
      overFieldCapB config s f = true ∨ systemSkipB relations f = true ∨
      hiddenSystemB f = true ∨ uiOnlyB f = true) :
    processField relations config s f = s := by
  unfold processField
  repeat' split
  all_goals first | rfl | simp_all

theorem processField_admits (relations : List DirectusRelation)
    (config : Option Config) (s : ScanState) (f : DirectusField)
    (h1 : excludedB config f = false)
    (h2 : overCollectionCapB config s f = false)
    (h3 : overFieldCapB config s f = false)
    (h4 : systemSkipB relations f = false)
    (h5 : hiddenSystemB f = false)
    (h6 : uiOnlyB f = false) :
    processField relations config s f =
      ⟨setKey
          (if (lookupA s.schema f.collection).isNone then
            setKey s.schema f.collection []
          else s.schema)
          f.collection
          (setKey
            ((lookupA
                (if (lookupA s.schema f.collection).isNone then
                  setKey s.schema f.collection []
                else s.schema)
                f.collection).getD [])
            f.field (buildSchemaField relations f)),
        setKey s.counts f.collection
          ((lookupA s.counts f.collection).getD 0 + 1),
        if (lookupA s.schema f.collection).isNone then
          s.totalCollections + 1
        else s.totalCollections⟩ := by
  simp [processField, h1, h2, h3, h4, h5, h6]

theorem processField_admit_stores (relations : List DirectusRelation)
    (config : Option Config) (s : ScanState) (f : DirectusField)
    (h1 : excludedB config f = false)
    (h2 : overCollectionCapB config s f = false)
    (h3 : overFieldCapB config s f = false)
    (h4 : systemSkipB relations f = false)
    (h5 : hiddenSystemB f = false)
    (h6 : uiOnlyB f = false) :
    admittedField (processField relations config s f) f.collection f.field =
      some (buildSchemaField relations f) ∧
    lookupA (processField relations config s f).counts f.collection =
      some ((lookupA s.counts f.collection).getD 0 + 1) := by
  rw [processField_admits relations config s f h1 h2 h3 h4 h5 h6]
  refine ⟨?_, ?_⟩
  · simp [admittedField, lookupA_setKey_self]
  · simp [lookupA_setKey_self]

theorem processField_admit_ne (relations : List DirectusRelation)
    (config : Option Config) (s : ScanState) (f : DirectusField)
    (h1 : excludedB config f = false)
    (h2 : overCollectionCapB config s f = false)
    (h3 : overFieldCapB config s f = false)
    (h4 : systemSkipB relations f = false)
    (h5 : hiddenSystemB f = false)
    (h6 : uiOnlyB f = false) :
    processField relations config s f ≠ s := by
  intro he
  have hc :=
    (processField_admit_stores relations config s f h1 h2 h3 h4 h5 h6).2
  rw [he] at hc
  cases hl : lookupA s.counts f.collection with
  | none => rw [hl] at hc; simp at hc
  | some n => rw [hl] at hc; simp at hc

/-! ### The claims -/

/-- C1: invalidation transitions the cache to `Empty` from any state, so the
next `getSchema()` — after any number of prior calls, reflected in the
arbitrary prior state `s` — performs exactly one new fetch (the fetch count
rises from `s.fetchCount` to `s.fetchCount + 1`) and loads its result; the
create-collection tool invokes the invalidation operation after its
structural mutation succeeds. -/
theorem invalidation_forces_exactly_one_refetch :
    ∀ (s : CacheState) (fetches : Nat → Schema),
      (invalidateSchemaCache s).schemaCache = none ∧
      createCollectionToolCacheEffect true s = invalidateSchemaCache s ∧
      getSchemaLazy true fetches (invalidateSchemaCache s) =
        .ok (fetches s.fetchCount,
          ⟨some (fetches s.fetchCount), s.fetchCount + 1⟩) := by
  intro s fetches
  exact ⟨rfl, rfl, rfl⟩

/-- C5: two sequential `getSchema()` calls with no intervening invalidation
return the same Schema and perform exactly one fetch between them (the fetch
count is `n + 1` after the first call and still `n + 1` after the second);
in the `Loaded` state `getSchema()` returns the memoized Schema immediately,
with no fetch and no client access. -/
theorem getSchema_idempotent_memoization :
    ∀ (fetches : Nat → Schema) (n m : Nat) (init : Bool) (sch : Schema),
      getSchemaLazy true fetches ⟨none, n⟩ =
        .ok (fetches n, ⟨some (fetches n), n + 1⟩) ∧
      getSchemaLazy true fetches ⟨some (fetches n), n + 1⟩ =
        .ok (fetches n, ⟨some (fetches n), n + 1⟩) ∧
      getSchemaLazy init fetches ⟨some sch, m⟩ = .ok (sch, ⟨some sch, m⟩) := by
  intro fetches n m init sch
  exact ⟨rfl, rfl, rfl⟩

/-- C3: whenever `getSchema()` resolves to a Schema `sch` in a given cache
state, `collectionExists(name)` run in that same state returns the presence
bit of `name`, and that bit is `true` exactly when `name` is a key of `sch`
— for every state (in particular for any post-invalidation state whose
refetch returns a different collection set) and every name. -/
theorem collectionExists_roundtrip
    (init : Bool) (fetches : Nat → Schema) (s : CacheState) (name : String)
    (sch : Schema) (s1 : CacheState)
    (h : getSchemaLazy init fetches s = .ok (sch, s1)) :
    collectionExists init fetches s name =
      .ok ((lookupA sch name).isSome, s1) ∧
    ((lookupA sch name).isSome = true ↔ name ∈ keysA sch) := by
  constructor
  · simp [collectionExists, h, Except.map]
  · exact lookupA_isSome_iff_mem_keysA sch name

/-- Witness for C3 at a concrete state: a first call against an empty cache
resolves to the one-collection schema `a`, and `collectionExists "a"`
returns its presence bit, which matches key membership. -/
theorem collectionExists_roundtrip_witness :
    collectionExists true singleCollectionOracle ⟨none, 0⟩ "a" =
      .ok ((lookupA ([("a", [])] : Schema) "a").isSome,
        ⟨some [("a", [])], 1⟩) ∧
    ((lookupA ([("a", [])] : Schema) "a").isSome = true ↔
      "a" ∈ keysA ([("a", [])] : Schema)) :=
  collectionExists_roundtrip true singleCollectionOracle ⟨none, 0⟩ "a"
    [("a", [])] ⟨some [("a", [])], 1⟩ rfl

/-- C2 (divergence evidence): `getSchemaLazy` is a bare check-then-fetch, so
two callers that both pass the `Empty`-cache check before either fetch
resolves issue two fetches, and when the two fetches resolve to different
schemas the two callers observe different results — against the claimed
single coalesced fetch. Schedule `[0, 1, 0, 1]`: both callers run their
synchronous prefix, then each fetch resolves. -/
theorem concurrent_first_calls_double_fetch :
    (concRun true twoFetchOracle (concInit 2) [0, 1, 0, 1]).fetchCount = 2 ∧
    (concRun true twoFetchOracle (concInit 2) [0, 1, 0, 1]).tasks =
      [.done (.ok [("first", [])]), .done (.ok [("second", [])])] ∧
    ([("first", [])] : Schema) ≠ [("second", [])] := by
  decide

/-- C4: every error raised by the remote reads is caught and converted into
the fallback Schema, never surfaced to the caller; the fallback holds
exactly the collections `directus_files` (fields `id` and
`filename_download`) and `directus_users` (fields `id` and `email`), two
fields each. -/
theorem fetch_error_yields_fallback :
    ∀ (e : String) (config : Option Config),
      fetchSchema (.error e) config = fallbackSchema ∧
      keysA fallbackSchema = ["directus_files", "directus_users"] ∧
      keysA ((lookupA fallbackSchema "directus_files").getD []) =
        ["id", "filename_download"] ∧
      keysA ((lookupA fallbackSchema "directus_users").getD []) =
        ["id", "email"] := by
  intro e config
  exact ⟨rfl, by decide, by decide, by decide⟩

/-- C6: during the scan, a field of a not-yet-admitted collection is skipped
outright once the admitted-collection count has reached `maxCollections`,
while a field of an already-admitted collection is still admitted (when no
other filter skips it); concretely, with `maxCollections = 2` and
collections `A`, `B`, `C` first encountered in that order, only `A` and `B`
appear, and the `A` field arriving after `C` was rejected is still
admitted. -/
theorem collection_cap_blocks_only_new_collections :
    (∀ (relations : List DirectusRelation) (config : Option Config)
        (s : ScanState) (f : DirectusField),
      (lookupA s.schema f.collection).isNone = true →
      s.totalCollections ≥ maxCollectionsOf config →
      processField relations config s f = s) ∧
    (∀ (relations : List DirectusRelation) (config : Option Config)
        (s : ScanState) (f : DirectusField),
      (lookupA s.schema f.collection).isSome = true →
      excludedB config f = false →
      overFieldCapB config s f = false →
      systemSkipB relations f = false →
      hiddenSystemB f = false →
      uiOnlyB f = false →
      admittedField (processField relations config s f)
        f.collection f.field = some (buildSchemaField relations f)) ∧
    (fetchSchemaScan
        [sampleFieldA1, sampleFieldB1, sampleFieldC1, sampleFieldA2] []
        (some capTwoConfig)).schema =
      [("A", [("f1", { type := "string" }), ("f2", { type := "string" })]),
        ("B", [("f1", { type := "string" })])] := by
  refine ⟨?_, ?_, by decide⟩
  · intro relations config s f hnone hge
    exact processField_skip _ _ _ _
      (Or.inr (Or.inl (by simp [overCollectionCapB, hnone, hge])))
  · intro relations config s f hsome h1 h3 h4 h5 h6
    have h2 : overCollectionCapB config s f = false := by
      unfold overCollectionCapB
      cases hx : lookupA s.schema f.collection with
      | none => rw [hx] at hsome; simp at hsome
      | some m => simp
    exact (processField_admit_stores relations config s f h1 h2 h3 h4 h5 h6).1

/-- Witness for C6: in the state where `A` and `B` fill the two-collection
cap, the first `C` field is skipped with the state unchanged, while the
late-arriving `A.f2` is still admitted. -/
theorem collection_cap_witness :
    processField [] (some capTwoConfig) capReachedState sampleFieldC1 =
      capReachedState ∧
    admittedField
        (processField [] (some capTwoConfig) capReachedState sampleFieldA2)
        sampleFieldA2.collection sampleFieldA2.field =
      some (buildSchemaField [] sampleFieldA2) :=
  ⟨collection_cap_blocks_only_new_collections.1 [] (some capTwoConfig)
      capReachedState sampleFieldC1 (by decide) (by decide),
    collection_cap_blocks_only_new_collections.2.1 [] (some capTwoConfig)
      capReachedState sampleFieldA2 (by decide) (by decide) (by decide)
      (by decide) (by decide) (by decide)⟩

/-- C7: once a collection's admitted-field count has reached
`maxFieldsPerCollection`, every further field record for that collection is
skipped with the state unchanged; concretely, with
`maxFieldsPerCollection = 1` a collection with two candidate fields retains
only the first-encountered one. -/
theorem field_cap_skips_further_fields :
    (∀ (relations : List DirectusRelation) (config : Option Config)
        (s : ScanState) (f : DirectusField),
      (lookupA s.counts f.collection).getD 0 ≥
        maxFieldsPerCollectionOf config →
      processField relations config s f = s) ∧
    (fetchSchemaScan [sampleFieldA1, sampleFieldA2] []
        (some oneFieldConfig)).schema =
      [("A", [("f1", { type := "string" })])] := by
  refine ⟨?_, by decide⟩
  intro relations config s f hge
  exact processField_skip _ _ _ _
    (Or.inr (Or.inr (Or.inl (by simp [overFieldCapB, hge]))))

/-- Witness for C7: with collection `A` at its one-field cap, the second `A`
field is skipped with the state unchanged. -/
theorem field_cap_witness :
    processField [] (some oneFieldConfig) fieldCapState sampleFieldA2 =
      fieldCapState :=
  field_cap_skips_further_fields.1 [] (some oneFieldConfig) fieldCapState
    sampleFieldA2 (by decide)

/-- C8 counterexample: `blog.cover` passes the exclusion and cap filters,
its collection is not a hidden system collection, it is system-marked, and
its relation points at `directus_files` — so the claim says it is admitted —
yet the scan skips it (the later alias/`no-data` UI filter fires), leaving
the state unchanged and the field absent. -/
theorem system_carveout_not_iff_counterexample :
    excludedB none coverField = false ∧
    overCollectionCapB none initScan coverField = false ∧
    overFieldCapB none initScan coverField = false ∧
    hiddenSystemB coverField = false ∧
    metaSystem coverField = true ∧
    isFileOrUserRelation [coverRelation] coverField = true ∧
    processField [coverRelation] none initScan coverField = initScan ∧
    admittedField (processField [coverRelation] none initScan coverField)
      "blog" "cover" = none := by
  decide

/-- C8 (amended): for a field record that passes the exclusion and cap
filters, whose owning collection is not a hidden system collection, and
which is not a UI-only alias/`no-data` field: if the field is system-marked,
it is admitted exactly when its relation's related collection is
`directus_files` or `directus_users`, and is skipped (state unchanged)
otherwise. -/
theorem system_field_carveout
    (relations : List DirectusRelation) (config : Option Config)
    (s : ScanState) (f : DirectusField)
    (h1 : excludedB config f = false)
    (h2 : overCollectionCapB config s f = false)
    (h3 : overFieldCapB config s f = false)
    (h5 : hiddenSystemB f = false)
    (h6 : uiOnlyB f = false)
    (hsys : metaSystem f = true) :
    (processField relations config s f ≠ s ↔
      isFileOrUserRelation relations f = true) ∧
    (isFileOrUserRelation relations f = true →
      admittedField (processField relations config s f)
        f.collection f.field = some (buildSchemaField relations f)) ∧
    (isFileOrUserRelation relations f = false →
      processField relations config s f = s) := by
  cases hr : isFileOrUserRelation relations f with
  | true =>
    have h4 : systemSkipB relations f = false := by
      simp [systemSkipB, hr]
    refine ⟨⟨fun _ => rfl,
        fun _ => processField_admit_ne relations config s f h1 h2 h3 h4 h5 h6⟩,
      fun _ =>
        (processField_admit_stores relations config s f h1 h2 h3 h4 h5 h6).1,
      fun hc => absurd hc (by simp)⟩
  | false =>
    have h4 : systemSkipB relations f = true := by
      simp [systemSkipB, hsys, hr]
    have hskip := processField_skip relations config s f
      (Or.inr (Or.inr (Or.inr (Or.inl h4))))
    refine ⟨⟨fun hne => absurd hskip hne, fun hc => absurd hc (by simp)⟩,
      fun hc => absurd hc (by simp [hr]), fun _ => hskip⟩

/-- Witness for C8 (amended) at a concrete input: the system-marked
`blog.avatar` field relating to `directus_users` is admitted from the empty
scan state, and the biconditional holds there. -/
theorem system_field_carveout_witness :
    (processField [avatarRelation] none initScan avatarField ≠ initScan ↔
      isFileOrUserRelation [avatarRelation] avatarField = true) ∧
    (isFileOrUserRelation [avatarRelation] avatarField = true →
      admittedField (processField [avatarRelation] none initScan avatarField)
        avatarField.collection avatarField.field =
        some (buildSchemaField [avatarRelation] avatarField)) ∧
    (isFileOrUserRelation [avatarRelation] avatarField = false →
      processField [avatarRelation] none initScan avatarField = initScan) :=
  system_field_carveout [avatarRelation] none initScan avatarField
    (by decide) (by decide) (by decide) (by decide) (by decide) (by decide)

/-- C9 counterexample: `blog.item` carries both `m2o` and `m2a` special
markers and has a matching relation whose meta holds an allowed-collections
list, yet the constructed `SchemaField` takes the `m2o` branch —
`relation_type` is `m2o` and `relation_collection` is the single name `x`,
not the allowed-collections list — so `m2a` is not checked independently of
the other relation markers. -/
theorem m2a_not_checked_independently :
    specialIncludes m2aCollidingField "m2a" = true ∧
    relLookup [m2aRelation] m2aCollidingField.collection
      m2aCollidingField.field = some m2aRelation ∧
    m2aRelation.meta.bind (·.one_allowed_collections) =
      some [some "a", none, some "b"] ∧
    (buildSchemaField [m2aRelation] m2aCollidingField).relation_type =
      some "m2o" ∧
    (buildSchemaField [m2aRelation] m2aCollidingField).relation_collection =
      some (.single (some "x")) ∧
    (buildSchemaField [m2aRelation] m2aCollidingField).relation_collection ≠
      some (.multi (stripNullUndefinedList [some "a", none, some "b"])) := by
  decide

/-- C9 (amended): for a field whose special markers include `m2a` and none
of `m2o`, `file`, `o2m`, `m2m`, `files`, and whose matching relation record
carries an allowed-collections list, the constructed `SchemaField` has
`relation_type` `m2a` and `relation_collection` equal to that ordered
allowed-collections list (null members stripped), not a single collection
name. -/
theorem m2a_uses_allowed_collections_list
    (relations : List DirectusRelation) (f : DirectusField)
    (r : DirectusRelation) (l : List (Option String))
    (hm2o : specialIncludes f "m2o" = false)
    (hfile : specialIncludes f "file" = false)
    (ho2m : specialIncludes f "o2m" = false)
    (hm2m : specialIncludes f "m2m" = false)
    (hfiles : specialIncludes f "files" = false)
    (hm2a : specialIncludes f "m2a" = true)
    (hr : relLookup relations f.collection f.field = some r)
    (hl : r.meta.bind (·.one_allowed_collections) = some l) :
    (buildSchemaField relations f).relation_type = some "m2a" ∧
    (buildSchemaField relations f).relation_collection =
      some (.multi (stripNullUndefinedList l)) := by
  unfold buildSchemaField
  simp only [hm2o, hfile, ho2m, hm2m, hfiles, hm2a, hr, hl]
  cases hx : (f.meta.bind (·.options)).bind (·.choices) with
  | none => simp [hl]
  | some cs =>
    by_cases hn : cs.length > 0 <;> simp [hn, hl]

/-- Witness for C9 (amended): a pure-`m2a` `blog.item` field with the
`[a, null, b]` allowed list yields `relation_type` `m2a` and the stripped
list `[a, b]`. -/
theorem m2a_uses_allowed_collections_list_witness :
    (buildSchemaField [m2aRelation] m2aOnlyField).relation_type =
      some "m2a" ∧
    (buildSchemaField [m2aRelation] m2aOnlyField).relation_collection =
      some (.multi (stripNullUndefinedList [some "a", none, some "b"])) :=
  m2a_uses_allowed_collections_list [m2aRelation] m2aOnlyField m2aRelation
    [some "a", none, some "b"] (by decide) (by decide) (by decide)
    (by decide) (by decide) (by decide) (by decide) (by decide)

/-- C10: when two surviving records share the same collection and field
name, the resulting Schema holds only the later record's `SchemaField` (the
earlier is overwritten in place) while both records are counted against the
collection's field budget — so with a cap of 2, the duplicate pair exhausts
the budget, a later distinct field is skipped, and collection `A` ends with
a single distinct field, fewer than the cap permits. -/
theorem duplicate_field_counts_against_cap :
    (fetchSchemaScan [dupField1, dupField2, lateField] []
        (some twoFieldConfig)).schema =
      [("A", [("f", buildSchemaField [] dupField2)])] ∧
    buildSchemaField [] dupField1 ≠ buildSchemaField [] dupField2 ∧
    (fetchSchemaScan [dupField1, dupField2, lateField] []
        (some twoFieldConfig)).counts = [("A", 2)] ∧
    (keysA ((lookupA (fetchSchemaScan [dupField1, dupField2, lateField] []
        (some twoFieldConfig)).schema "A").getD [])).length <
      maxFieldsPerCollectionOf (some twoFieldConfig) := by
  decide

end McpDirectus
